import Mathlib

/-!
Verification of the PX4 vision target estimator position core
(`KF_position_unified.h` / `VTEPosition.h`).

Shallow embedding conventions:
* `float` values are modelled as exact rationals (`ℚ`); float literals such
  as `1e-6f` map to the exact rational `1/1000000`.
* The state dimension `vtest::State::size` is `5`, with the state ordering
  `[r, vd, b, at, vt]` documented in the header
  (`pos_rel = 0, vel_uav = 1, bias = 2, acc_target = 3, vel_target = 4`).
* `matrix::Vector<float, N>` becomes `Fin 5 → ℚ` and
  `matrix::Matrix<float, N, N>` becomes `Fin 5 → Fin 5 → ℚ`.
* Methods that mutate the object become functions `KF → KF` (or return a
  pair when the C++ method also returns a value).
* Functions whose bodies live in `.cpp` files that are not part of the
  two headers are modelled from the specification; their doc comments say so.
-/

namespace VisionTargetEstimator

/-- `vtest::State::size` for the unified (moving-target) state `[r, vd, b, at, vt]`. -/
abbrev stateSize : Nat := 5

/-- `matrix::Vector<float, vtest::State::size>` as an exact-rational vector. -/
abbrev Vec : Type := Fin stateSize → ℚ

/-- `matrix::Matrix<float, vtest::State::size, vtest::State::size>`. -/
abbrev Mat : Type := Fin stateSize → Fin stateSize → ℚ

/-- `matrix::diag(v)`: square matrix with `v` on the diagonal, zero elsewhere. -/
def diagMat (v : Vec) : Mat := fun i j => if i = j then v i else 0

/-- Diagonal of a square matrix (`matrix::SquareMatrix::diag()`). -/
def matDiag (m : Mat) : Vec := fun i => m i i

/-- Dot product of two vectors. -/
def dotVec (a b : Vec) : ℚ := ∑ i, a i * b i

/-- Matrix–vector product. -/
def mulVec (m : Mat) (v : Vec) : Vec := fun i => ∑ j, m i j * v j

/-- The class `KF_position_unified`: one scalar-axis Kalman filter.
Field names follow the C++ members. -/
structure KF_position_unified where
  _state : Vec
  _sync_state : Vec
  _meas_matrix_row_vect : Vec
  _state_covariance : Mat
  _bias_var : ℚ
  _acc_var : ℚ
  _input_var : ℚ
  _innov : ℚ
  _innov_cov : ℚ
  _nis_threshold : ℚ

namespace KF_position_unified

/-- The default constructor `KF_position_unified() {}`: the member vectors and
the covariance matrix are value-initialized to zero by the `matrix` library,
and the scalar members carry the in-class initializers `{0.f}` / `{0.0f}`. -/
def defaultKF : KF_position_unified :=
  { _state := fun _ => 0
    _sync_state := fun _ => 0
    _meas_matrix_row_vect := fun _ => 0
    _state_covariance := fun _ _ => 0
    _bias_var := 0
    _acc_var := 0
    _input_var := 0
    _innov := 0
    _innov_cov := 0
    _nis_threshold := 0 }

/-- `setH(h_meas)`: stores the measurement row vector. -/
def setH (f : KF_position_unified) (h_meas : Vec) : KF_position_unified :=
  { f with _meas_matrix_row_vect := h_meas }

/-- `setState(state)`. -/
def setState (f : KF_position_unified) (state : Vec) : KF_position_unified :=
  { f with _state := state }

/-- `setStateVar(var)`: rebuilds the covariance as `diag(var)`. -/
def setStateVar (f : KF_position_unified) (var : Vec) : KF_position_unified :=
  { f with _state_covariance := diagMat var }

/-- `getState()`. -/
def getState (f : KF_position_unified) : Vec := f._state

/-- `getStateVar()`: returns the diagonal of the covariance matrix. -/
def getStateVar (f : KF_position_unified) : Vec := matDiag f._state_covariance

/-- `getTestRatio()`: returns `-1` when `fabsf(_innov_cov) < 1e-6f`, otherwise
`_innov / _innov_cov * _innov`. -/
def getTestRatio (f : KF_position_unified) : ℚ :=
  if |f._innov_cov| < 1/1000000 then -1 else f._innov / f._innov_cov * f._innov

/-- `setNISthreshold(t)`. -/
def setNISthreshold (f : KF_position_unified) (t : ℚ) : KF_position_unified :=
  { f with _nis_threshold := t }

/-- `setInputAccVar(var)`. -/
def setInputAccVar (f : KF_position_unified) (var : ℚ) : KF_position_unified :=
  { f with _input_var := var }

/-- `setBiasVar(var)`. -/
def setBiasVar (f : KF_position_unified) (var : ℚ) : KF_position_unified :=
  { f with _bias_var := var }

/-- `setTargetAccVar(var)`. -/
def setTargetAccVar (f : KF_position_unified) (var : ℚ) : KF_position_unified :=
  { f with _acc_var := var }

/-- Modelled from the spec: the body of `KF_position_unified::predictState`
lives in a `.cpp` file that is not part of the sources. Per the spec it
"propagates the state forward by `dt` seconds under a
constant-relative-acceleration model driven by the supplied external
acceleration input (vehicle acceleration along this axis) and the filter's own
target-acceleration state component", for the state ordering `[r, vd, b, at, vt]`:
the relative position integrates the relative velocity `vt - vd` and the
relative acceleration `at - acc`, the vehicle velocity integrates `acc`, and
the target velocity integrates the target-acceleration state `at`. -/
def predictStateMap (dt acc : ℚ) (s : Vec) : Vec :=
  ![s 0 + dt * (s 4 - s 1) + dt ^ 2 / 2 * (s 3 - acc),
    s 1 + acc * dt,
    s 2,
    s 3,
    s 4 + s 3 * dt]

/-- Modelled from the spec: `predictState(dt, acc)` applies the motion model
to the canonical state. -/
def predictState (f : KF_position_unified) (dt acc : ℚ) : KF_position_unified :=
  { f with _state := predictStateMap dt acc f._state }

/-- Modelled from the spec: `syncState(dt, acc)` applies the same motion model
across `dt` (which may be negative) "without mutating the filters' canonical
state/covariance"; the result is held in the `_sync_state` member. -/
def syncState (f : KF_position_unified) (dt acc : ℚ) : KF_position_unified :=
  { f with _sync_state := predictStateMap dt acc f._state }

/-- Jacobian of the motion model `predictStateMap` with respect to the state
(the linearized transition used by covariance prediction). -/
def transitionF (dt : ℚ) : Mat :=
  ![![1, -dt, 0, dt ^ 2 / 2, dt],
    ![0, 1, 0, 0, 0],
    ![0, 0, 1, 0, 0],
    ![0, 0, 0, 1, 0],
    ![0, 0, 0, dt, 1]]

/-- Input-acceleration noise gain: white noise on the vehicle acceleration
enters the relative position with weight `-dt²/2` and the vehicle velocity
with weight `dt` under the motion model. -/
def inputG (dt : ℚ) : Vec := ![-(dt ^ 2) / 2, dt, 0, 0, 0]

/-- Noise gain of the bias random walk: the bias state component. -/
def biasG (dt : ℚ) : Vec := ![0, 0, dt, 0, 0]

/-- Noise gain of the target-acceleration random walk: the target-acceleration
state component. -/
def accG (dt : ℚ) : Vec := ![0, 0, 0, dt, 0]

/-- Modelled from the spec: process-noise matrix added by `predictCov`,
"scaled by the configured input-acceleration variance, bias variance, and
target-acceleration variance (each independently configurable)"; the bias and
target-acceleration components are modelled as independent random walks. -/
def processQ (f : KF_position_unified) (dt : ℚ) : Mat := fun i j =>
  f._input_var * inputG dt i * inputG dt j
    + f._bias_var * biasG dt i * biasG dt j
    + f._acc_var * accG dt i * accG dt j

/-- Modelled from the spec: the body of `KF_position_unified::predictCov` is
not part of the sources. Per the spec it "propagates covariance forward by the
same `dt` using the linearized transition and adds process noise":
`P ← F·P·Fᵗ + Q`. -/
def predictCov (f : KF_position_unified) (dt : ℚ) : KF_position_unified :=
  { f with
    _state_covariance := fun i j =>
      (∑ k, ∑ l, transitionF dt i k * f._state_covariance k l * transitionF dt j l)
        + processQ f dt i j }

/-- Modelled from the spec: `computeInnov(meas)` returns the innovation
`measurement − H · state` and records it as the residual of the last
measurement update (`_innov`). -/
def computeInnov (f : KF_position_unified) (meas : ℚ) : ℚ × KF_position_unified :=
  let innov := meas - dotVec f._meas_matrix_row_vect f._state
  (innov, { f with _innov := innov })

/-- Modelled from the spec: `computeInnovCov(measUnc)` returns the innovation
covariance `H · P · Hᵗ + measUnc` using the previously set measurement row,
records it as the innovation covariance of the last measurement update
(`_innov_cov`), and leaves the state vector and the covariance matrix
untouched. -/
def computeInnovCov (f : KF_position_unified) (measUnc : ℚ) : ℚ × KF_position_unified :=
  let innovCov := dotVec f._meas_matrix_row_vect (mulVec f._state_covariance f._meas_matrix_row_vect) + measUnc
  (innovCov, { f with _innov_cov := innovCov })

/-- The scalar Kalman gain `K = P·Hᵗ / S` built from the stored covariance,
measurement row and innovation covariance. -/
def kalmanGain (f : KF_position_unified) : Vec :=
  fun i => mulVec f._state_covariance f._meas_matrix_row_vect i / f._innov_cov

/-- The state after the scalar Kalman correction `x ← x + K·innov`. -/
def correctedState (f : KF_position_unified) : Vec :=
  fun i => f._state i + kalmanGain f i * f._innov

/-- The covariance after the scalar Kalman correction `P ← P − K·H·P`. -/
def correctedCov (f : KF_position_unified) : Mat :=
  fun i j => f._state_covariance i j
    - kalmanGain f i * (∑ k, f._meas_matrix_row_vect k * f._state_covariance k j)

/-- Modelled from the spec: the body of `KF_position_unified::update` is not
part of the sources. Per the spec it "applies the scalar Kalman gain
correction to state and covariance using the most recently computed
innovation, innovation covariance, and `H`. Always succeeds (returns success
indicator) unless the innovation covariance is degenerate, in which case no
correction is applied and failure is signaled." Degeneracy is the same
numerical-negligibility test the class uses in `getTestRatio`:
`fabsf(_innov_cov) < 1e-6f`. -/
def update (f : KF_position_unified) : Bool × KF_position_unified :=
  if |f._innov_cov| < 1/1000000 then (false, f)
  else (true, { f with _state := correctedState f, _state_covariance := correctedCov f })

/-- A concrete non-negative variance vector used to exercise the filter. -/
def egVar : Vec := ![2, 3, 4, 5, 6]

/-- A concrete symmetric covariance with a strong negative correlation between
the relative position (index 0) and the target velocity (index 4). -/
def egCorrCov : Mat :=
  ![![1, 0, 0, 0, -9/10],
    ![0, 0, 0, 0, 0],
    ![0, 0, 0, 0, 0],
    ![0, 0, 0, 0, 0],
    ![-9/10, 0, 0, 0, 1]]

/-- A filter whose covariance carries the negative correlation of `egCorrCov`
and whose process-noise variances are all zero (hence non-negative). -/
def egCorrKF : KF_position_unified :=
  { defaultKF with _state_covariance := egCorrCov }

/-- A filter with a diagonal covariance `diag egVar` and unit process-noise
variances. -/
def egDiagKF : KF_position_unified :=
  { defaultKF with
    _state_covariance := diagMat egVar
    _input_var := 1
    _bias_var := 1
    _acc_var := 1 }

/-- A filter whose stored innovation covariance is non-degenerate. -/
def egNondegenKF : KF_position_unified :=
  { defaultKF with _innov_cov := 1 }

end KF_position_unified

/-- A matrix is positive semidefinite: every quadratic form is non-negative.
Reachable covariance matrices are of this kind (they are produced from
diagonal non-negative initializations by PSD-preserving operations). -/
def PosSemidef (m : Mat) : Prop := ∀ x : Vec, 0 ≤ ∑ i, ∑ j, x i * m i j * x j

namespace VTEPosition

/-- `ObsValidMask::FUSE_TARGET_GPS_POS = (1 << 0)`. -/
def FUSE_TARGET_GPS_POS : Nat := 1
/-- `ObsValidMask::FUSE_UAV_GPS_VEL = (1 << 1)`. -/
def FUSE_UAV_GPS_VEL : Nat := 2
/-- `ObsValidMask::FUSE_VISION = (1 << 2)`. -/
def FUSE_VISION : Nat := 4
/-- `ObsValidMask::FUSE_MISSION_POS = (1 << 3)`. -/
def FUSE_MISSION_POS : Nat := 8
/-- `ObsValidMask::FUSE_TARGET_GPS_VEL = (1 << 4)`. -/
def FUSE_TARGET_GPS_VEL : Nat := 16
/-- `ObsValidMask::FUSE_UWB = (1 << 5)`. -/
def FUSE_UWB : Nat := 32

/-- `hasNewNonGpsPositionSensorData(mask)`: true when the vision bit or the
UWB bit is set. The `uint8_t` mask is embedded as a `Nat` below `2^8`. -/
def hasNewNonGpsPositionSensorData (mask : Nat) : Bool :=
  ((mask &&& FUSE_VISION) != 0) || ((mask &&& FUSE_UWB) != 0)

/-- `hasNewPositionSensorData(mask)`: true when the mask intersects
`FUSE_MISSION_POS | FUSE_TARGET_GPS_POS | FUSE_VISION | FUSE_UWB`. -/
def hasNewPositionSensorData (mask : Nat) : Bool :=
  (mask &&& (FUSE_MISSION_POS ||| FUSE_TARGET_GPS_POS ||| FUSE_VISION ||| FUSE_UWB)) != 0

/-- `shouldSetBias(mask)`: `isMeasValid(_pos_rel_gnss.timestamp) &&
hasNewNonGpsPositionSensorData(mask)`. The freshness test
`isMeasValid(_pos_rel_gnss.timestamp)` is computed in a `.cpp` file that is
not part of the sources, so its boolean outcome is taken as an input. -/
def shouldSetBias (gnssRelValid : Bool) (mask : Nat) : Bool :=
  gnssRelValid && hasNewNonGpsPositionSensorData mask

/-- The bias-relevant part of the orchestrator state: the latch flag
`_bias_set` and the latched 3-vector bias estimate. -/
structure BiasState where
  _bias_set : Bool
  bias : Fin 3 → ℚ

/-- The per-cycle inputs that the bias-estimation step looks at: the outcome
of the GNSS-relative-position freshness check, the validity mask, and the two
relative-position vectors whose difference defines the bias. -/
structure BiasCycleObs where
  gnssRelValid : Bool
  mask : Nat
  posRelGnss : Fin 3 → ℚ
  posRelSensor : Fin 3 → ℚ

/-- Modelled from the spec: the body of `VTEPosition::updateBias` is not part
of the sources. Per the spec, "only if a target-GNSS position observation is
currently valid AND at least one non-GNSS relative-position observation
(vision or UWB) is valid simultaneously, and no bias has yet been committed
for this lifecycle: compute bias as the difference between the GNSS-derived
relative position and the relative-sensor-derived relative position, and
latch it for the remainder of the lifecycle." -/
def updateBias (s : BiasState) (c : BiasCycleObs) : BiasState :=
  if !s._bias_set && shouldSetBias c.gnssRelValid c.mask then
    { _bias_set := true, bias := fun i => c.posRelGnss i - c.posRelSensor i }
  else s

/-- Folding the per-cycle bias step over a sequence of cycles within one
estimator lifecycle (no reset occurs in between). -/
def runBiasCycles (s : BiasState) (cs : List BiasCycleObs) : BiasState :=
  cs.foldl updateBias s

/-- The joint estimator lifecycle state. -/
inductive EstimatorLifecycle
  | Uninitialized
  | Running
  | TimedOut
deriving DecidableEq

/-- Modelled from the spec: the dispatch in `VTEPosition::updateStep` is not
part of the sources. Per the spec, while `Uninitialized`, the transition to
`Running` (the (re)construction of the filter bank) is "triggered when at
least one position-type observation (mission position, target GNSS position,
vision, or UWB) is valid in the current cycle", i.e. exactly when
`hasNewPositionSensorData` holds for the cycle's validity mask. -/
def uninitializedCycleStep (mask : Nat) : EstimatorLifecycle :=
  if hasNewPositionSensorData mask then .Running else .Uninitialized

/-- `static_cast<uint32_t>(x)` applied to a C++ `float` value `x` (embedded
as an exact rational): the value is truncated toward zero; when the truncated
value is not representable in `uint32_t` the conversion is undefined
behavior, embedded as `none`. -/
def castFloatToUint32 (q : ℚ) : Option Nat :=
  if -1 < q ∧ q < 2 ^ 32 then some (Int.toNat ⌊q⌋) else none

/-- `set_vte_timeout(tout)`: `_vte_TIMEOUT_US = static_cast<uint32_t>(tout * 1_s)`,
where `1_s` is the literal `1000000` microseconds. The `float` product is
embedded as the exact rational product. -/
def set_vte_timeout (tout : ℚ) : Option Nat :=
  castFloatToUint32 (tout * 1000000)

/-- A bias state in which a bias value has already been latched. -/
def egLatchedBias : BiasState :=
  { _bias_set := true, bias := fun _ => 7 }

/-- A cycle in which the GNSS relative position is valid and the vision and
target-GNSS-position bits are both set (a fully bias-eligible cycle). -/
def egBiasObs : BiasCycleObs :=
  { gnssRelValid := true
    mask := FUSE_TARGET_GPS_POS ||| FUSE_VISION
    posRelGnss := fun _ => 3
    posRelSensor := fun _ => 1 }

end VTEPosition

/-! ## Theorems for the claims -/

/-- Claim C1: for every axis filter and any prior sequence of calls to
`computeInnov`/`computeInnovCov` (hence for every reachable stored `_innov`
and `_innov_cov`), `getTestRatio()` returns exactly `-1` when the absolute
value of the stored innovation covariance is below `1e-6`, and otherwise
returns the innovation squared divided by the innovation covariance. -/
theorem getTestRatio_spec (f : KF_position_unified) :
    f.getTestRatio =
      if |f._innov_cov| < 1/1000000 then -1 else f._innov ^ 2 / f._innov_cov := by
  unfold KF_position_unified.getTestRatio
  split
  · rfl
  · ring

/-- Claim C9: for a freshly default-constructed axis filter, before any call
to `computeInnovCov`, the stored innovation covariance is zero, it is below
the `1e-6` epsilon, and `getTestRatio()` returns the `-1` sentinel. -/
theorem default_testRatio_sentinel :
    KF_position_unified.defaultKF._innov_cov = 0 ∧
    |KF_position_unified.defaultKF._innov_cov| < 1/1000000 ∧
    KF_position_unified.defaultKF.getTestRatio = -1 := by
  refine ⟨rfl, by norm_num [KF_position_unified.defaultKF], ?_⟩
  norm_num [KF_position_unified.getTestRatio, KF_position_unified.defaultKF]

/-- Claim C7: after `setStateVar(v)` the covariance matrix is exactly the
diagonal matrix built from `v` — every off-diagonal entry is zero, the
diagonal carries `v` — and a subsequent `getStateVar()` returns exactly `v`. -/
theorem setStateVar_diag_spec (f : KF_position_unified) (v : Vec) :
    (∀ i j, i ≠ j → (f.setStateVar v)._state_covariance i j = 0) ∧
    (∀ i, (f.setStateVar v)._state_covariance i i = v i) ∧
    (f.setStateVar v).getStateVar = v := by
  refine ⟨fun i j hij => ?_, fun i => ?_, funext fun i => ?_⟩
  · simp [KF_position_unified.setStateVar, diagMat, hij]
  · simp [KF_position_unified.setStateVar, diagMat]
  · simp [KF_position_unified.setStateVar, KF_position_unified.getStateVar, diagMat, matDiag]

/-- Witness for C7 at a concrete filter and variance vector. -/
theorem setStateVar_diag_spec_witness :
    (KF_position_unified.defaultKF.setStateVar KF_position_unified.egVar)._state_covariance 0 1 = 0 ∧
    (KF_position_unified.defaultKF.setStateVar KF_position_unified.egVar).getStateVar = KF_position_unified.egVar :=
  ⟨(setStateVar_diag_spec KF_position_unified.defaultKF KF_position_unified.egVar).1 0 1 (by decide),
   (setStateVar_diag_spec KF_position_unified.defaultKF KF_position_unified.egVar).2.2⟩

/-- Claim C4: for every axis filter state, every `dt` and every constant
acceleration `acc`, the backward state propagation of `syncState` is a
round trip: applying the motion model across `dt` and then across `-dt`
returns the state vector to its original value (exactly, over exact
arithmetic); and neither `syncState` call modifies the covariance matrix
(nor the canonical state vector). -/
theorem syncState_roundtrip (f : KF_position_unified) (dt acc : ℚ) :
    KF_position_unified.predictStateMap (-dt) acc ((f.syncState dt acc)._sync_state) = f._state ∧
    (f.syncState dt acc)._state_covariance = f._state_covariance ∧
    ((f.syncState dt acc).syncState (-dt) acc)._state_covariance = f._state_covariance ∧
    (f.syncState dt acc)._state = f._state ∧
    ((f.syncState dt acc).syncState (-dt) acc)._state = f._state := by
  refine ⟨?_, rfl, rfl, rfl, rfl⟩
  show KF_position_unified.predictStateMap (-dt) acc (KF_position_unified.predictStateMap dt acc f._state) = f._state
  funext i
  fin_cases i <;> simp [KF_position_unified.predictStateMap] <;> first | rfl | ring

/-- Claim C6: for every covariance matrix `P`, measurement row `H` and
measurement uncertainty `u`, `computeInnovCov(u)` returns `H·P·Hᵗ + u`,
stores it as the innovation covariance, and leaves the state vector and the
covariance matrix unchanged; and whenever `P` is positive semidefinite (which
all reachable covariances are), the returned value is at least `u`. -/
theorem computeInnovCov_spec (f : KF_position_unified) (u : ℚ) :
    (f.computeInnovCov u).1 =
      (∑ i, ∑ j, f._meas_matrix_row_vect i * f._state_covariance i j * f._meas_matrix_row_vect j) + u ∧
    (f.computeInnovCov u).2._state = f._state ∧
    (f.computeInnovCov u).2._state_covariance = f._state_covariance ∧
    (f.computeInnovCov u).2._innov_cov = (f.computeInnovCov u).1 ∧
    (PosSemidef f._state_covariance → u ≤ (f.computeInnovCov u).1) := by
  have hval : (f.computeInnovCov u).1 =
      (∑ i, ∑ j, f._meas_matrix_row_vect i * f._state_covariance i j * f._meas_matrix_row_vect j) + u := by
    show dotVec f._meas_matrix_row_vect (mulVec f._state_covariance f._meas_matrix_row_vect) + u = _
    congr 1
    unfold dotVec mulVec
    apply Finset.sum_congr rfl
    intro i _
    rw [Finset.mul_sum]
    apply Finset.sum_congr rfl
    intro j _
    ring
  refine ⟨hval, rfl, rfl, rfl, fun hpsd => ?_⟩
  have hq := hpsd f._meas_matrix_row_vect
  rw [hval]
  linarith

/-- Witness for C6: at a filter with the zero covariance (positive
semidefinite) and the all-ones measurement row, the innovation covariance is
at least the supplied uncertainty `2`. -/
theorem computeInnovCov_spec_witness :
    (2:ℚ) ≤ ((KF_position_unified.defaultKF.setH fun _ => 1).computeInnovCov 2).1 :=
  (computeInnovCov_spec (KF_position_unified.defaultKF.setH fun _ => 1) 2).2.2.2.2
    (fun x => by simp [KF_position_unified.defaultKF, KF_position_unified.setH])

/-- Claim C2: `update()` returns `true` and applies the scalar Kalman gain
correction `x ← x + (P·Hᵗ/S)·innov`, `P ← P − (P·Hᵗ/S)·(H·P)` whenever the
stored innovation covariance is non-degenerate (`|S| ≥ 1e-6`); when it is
degenerate, `update()` returns `false` and leaves both the state vector and
the covariance matrix (the whole filter) unchanged. -/
theorem update_spec (f : KF_position_unified) :
    (|f._innov_cov| < 1/1000000 → f.update = (false, f)) ∧
    (1/1000000 ≤ |f._innov_cov| →
      (f.update).1 = true ∧
      ((f.update).2._state = fun i =>
        f._state i + (∑ j, f._state_covariance i j * f._meas_matrix_row_vect j) / f._innov_cov * f._innov) ∧
      ((f.update).2._state_covariance = fun i j =>
        f._state_covariance i j -
          (∑ k, f._state_covariance i k * f._meas_matrix_row_vect k) / f._innov_cov *
            (∑ k, f._meas_matrix_row_vect k * f._state_covariance k j))) := by
  constructor
  · intro hdeg
    unfold KF_position_unified.update
    rw [if_pos hdeg]
  · intro hnd
    have hcond : ¬(|f._innov_cov| < 1/1000000) := not_lt.mpr hnd
    unfold KF_position_unified.update
    rw [if_neg hcond]
    refine ⟨rfl, funext fun i => ?_, funext fun i => funext fun j => ?_⟩
    · simp [KF_position_unified.correctedState, KF_position_unified.kalmanGain, mulVec]
    · simp [KF_position_unified.correctedCov, KF_position_unified.kalmanGain, mulVec]

/-- Witness for C2: a filter with innovation covariance `1` is
non-degenerate, so `update()` succeeds there. -/
theorem update_spec_witness :
    (KF_position_unified.egNondegenKF.update).1 = true :=
  ((update_spec KF_position_unified.egNondegenKF).2
    (by norm_num [KF_position_unified.egNondegenKF, KF_position_unified.defaultKF])).1

/-- Counterexample to Claim C5 as stated: at the filter `egCorrKF` — whose
covariance carries a negative position/target-velocity correlation and whose
process-noise variances are all zero (hence non-negative) — `predictCov(1)`
strictly decreases the `(0,0)` diagonal covariance entry. -/
theorem predictCov_diag_counterexample :
    (KF_position_unified.egCorrKF.predictCov 1)._state_covariance 0 0 <
      KF_position_unified.egCorrKF._state_covariance 0 0 ∧
    KF_position_unified.egCorrKF._input_var = 0 ∧
    KF_position_unified.egCorrKF._bias_var = 0 ∧
    KF_position_unified.egCorrKF._acc_var = 0 := by
  refine ⟨?_, rfl, rfl, rfl⟩
  norm_num [KF_position_unified.predictCov, KF_position_unified.egCorrKF,
    KF_position_unified.egCorrCov, KF_position_unified.defaultKF,
    KF_position_unified.transitionF, KF_position_unified.processQ,
    KF_position_unified.inputG, KF_position_unified.biasG, KF_position_unified.accG,
    Fin.sum_univ_five]

/-- Claim C5 (amended): for every axis filter whose covariance matrix is
diagonal with non-negative entries (as `setStateVar` produces at
(re)initialization), every `dt ≥ 0` and all non-negative configured
process-noise variances, `predictCov(dt)` leaves each diagonal covariance
entry greater than or equal to its value before the call. -/
theorem predictCov_diag_monotone (f : KF_position_unified) (v : Vec) (dt : ℚ)
    (hP : f._state_covariance = diagMat v) (hv : ∀ i, 0 ≤ v i) (hdt : 0 ≤ dt)
    (hin : 0 ≤ f._input_var) (hb : 0 ≤ f._bias_var) (ha : 0 ≤ f._acc_var) :
    ∀ i, f._state_covariance i i ≤ (f.predictCov dt)._state_covariance i i := by
  intro i
  simp only [KF_position_unified.predictCov, hP]
  have hdiag : diagMat v i i = v i := by simp [diagMat]
  rw [hdiag]
  have hsum : (∑ k, ∑ l, KF_position_unified.transitionF dt i k * diagMat v k l *
      KF_position_unified.transitionF dt i l)
      = ∑ k, KF_position_unified.transitionF dt i k ^ 2 * v k := by
    apply Finset.sum_congr rfl
    intro k _
    rw [Finset.sum_eq_single k]
    · simp [diagMat]
      ring
    · intro l _ hlk
      simp [diagMat, Ne.symm hlk]
    · intro hk
      exact absurd (Finset.mem_univ k) hk
  rw [hsum]
  have hQ : 0 ≤ KF_position_unified.processQ f dt i i := by
    unfold KF_position_unified.processQ
    nlinarith [mul_nonneg hin (mul_self_nonneg (KF_position_unified.inputG dt i)),
      mul_nonneg hb (mul_self_nonneg (KF_position_unified.biasG dt i)),
      mul_nonneg ha (mul_self_nonneg (KF_position_unified.accG dt i))]
  have hFii : KF_position_unified.transitionF dt i i = 1 := by fin_cases i <;> rfl
  have hmain : v i ≤ ∑ k, KF_position_unified.transitionF dt i k ^ 2 * v k := by
    have hle := Finset.single_le_sum
      (f := fun k => KF_position_unified.transitionF dt i k ^ 2 * v k)
      (fun k _ => mul_nonneg (sq_nonneg _) (hv k)) (Finset.mem_univ i)
    simpa [hFii] using hle
  linarith

/-- Witness for the amended C5 at the concrete diagonal filter `egDiagKF`
with `dt = 1`. -/
theorem predictCov_diag_monotone_witness :
    KF_position_unified.egDiagKF._state_covariance 0 0 ≤
      (KF_position_unified.egDiagKF.predictCov 1)._state_covariance 0 0 :=
  predictCov_diag_monotone KF_position_unified.egDiagKF KF_position_unified.egVar 1
    rfl (by decide) (by norm_num) (by decide) (by decide) (by decide) 0

/-- Claim C3: within one estimator lifecycle (no reset), once a bias value
has been latched (`_bias_set`), no later sequence of cycles — including
cycles in which a valid target-GNSS relative position and a valid vision or
UWB observation are simultaneously present — changes the latched bias value,
and the latch stays set. -/
theorem bias_latched_once (s : VTEPosition.BiasState) (cs : List VTEPosition.BiasCycleObs)
    (h : s._bias_set = true) :
    (VTEPosition.runBiasCycles s cs).bias = s.bias ∧
    (VTEPosition.runBiasCycles s cs)._bias_set = true := by
  induction cs generalizing s with
  | nil => exact ⟨rfl, h⟩
  | cons c rest ih =>
    have hstep : VTEPosition.updateBias s c = s := by
      unfold VTEPosition.updateBias
      rw [h]
      simp
    show (List.foldl VTEPosition.updateBias s (c :: rest)).bias = s.bias ∧
      (List.foldl VTEPosition.updateBias s (c :: rest))._bias_set = true
    rw [List.foldl_cons, hstep]
    exact ih s h

/-- Witness for C3: a latched bias state fed two further fully bias-eligible
cycles (target-GNSS relative position valid, vision and target-GNSS-position
bits set) keeps its latched bias. -/
theorem bias_latched_once_witness :
    VTEPosition.shouldSetBias VTEPosition.egBiasObs.gnssRelValid VTEPosition.egBiasObs.mask = true ∧
    (VTEPosition.runBiasCycles VTEPosition.egLatchedBias
      [VTEPosition.egBiasObs, VTEPosition.egBiasObs]).bias = VTEPosition.egLatchedBias.bias :=
  ⟨by decide,
   (bias_latched_once VTEPosition.egLatchedBias [VTEPosition.egBiasObs, VTEPosition.egBiasObs] rfl).1⟩

set_option maxRecDepth 8192 in
/-- Claim C8: while the estimator is `Uninitialized`, a cycle (re)constructs
the filter bank (transitions to `Running`) exactly when the `uint8_t`
validity mask has at least one of the bits `FUSE_TARGET_GPS_POS` (bit 0),
`FUSE_VISION` (bit 2), `FUSE_MISSION_POS` (bit 3), `FUSE_UWB` (bit 5) set;
a cycle whose mask has none of these bits leaves it `Uninitialized`. -/
theorem uninitialized_transition_spec (mask : Nat) (hm : mask < 256) :
    (VTEPosition.uninitializedCycleStep mask = VTEPosition.EstimatorLifecycle.Running ↔
      (mask.testBit 0 ∨ mask.testBit 2 ∨ mask.testBit 3 ∨ mask.testBit 5)) ∧
    (VTEPosition.uninitializedCycleStep mask = VTEPosition.EstimatorLifecycle.Uninitialized ↔
      ¬(mask.testBit 0 ∨ mask.testBit 2 ∨ mask.testBit 3 ∨ mask.testBit 5)) := by
  have aux : ∀ m : Fin 256,
      (VTEPosition.uninitializedCycleStep m.val = VTEPosition.EstimatorLifecycle.Running ↔
        (m.val.testBit 0 ∨ m.val.testBit 2 ∨ m.val.testBit 3 ∨ m.val.testBit 5)) ∧
      (VTEPosition.uninitializedCycleStep m.val = VTEPosition.EstimatorLifecycle.Uninitialized ↔
        ¬(m.val.testBit 0 ∨ m.val.testBit 2 ∨ m.val.testBit 3 ∨ m.val.testBit 5)) := by
    decide
  exact aux ⟨mask, hm⟩

/-- Witness for C8: a mask with only the vision bit initializes the bank; a
mask with only the UAV-GNSS-velocity bit (not a position-type bit) leaves the
estimator `Uninitialized`. -/
theorem uninitialized_transition_spec_witness :
    VTEPosition.uninitializedCycleStep 4 = VTEPosition.EstimatorLifecycle.Running ∧
    VTEPosition.uninitializedCycleStep 2 = VTEPosition.EstimatorLifecycle.Uninitialized :=
  ⟨(uninitialized_transition_spec 4 (by norm_num)).1.mpr (Or.inr (Or.inl (by decide))),
   (uninitialized_transition_spec 2 (by norm_num)).2.mpr (by decide)⟩

/-- Counterexample to Claim C10 as stated: at `tout = 5000` seconds the
microsecond value `5·10⁹` reaches `2^32`, and the `static_cast<uint32_t>` of
an out-of-range `float` value is undefined behavior (modelled `none`), not a
value that wraps modulo `2^32` as the claim asserts. -/
theorem set_vte_timeout_no_wrap :
    VTEPosition.set_vte_timeout 5000 = none ∧
    VTEPosition.set_vte_timeout 5000 ≠ some ((5000000000 : Nat) % 2 ^ 32) ∧
    (2 ^ 32 : ℚ) ≤ 5000 * 1000000 := by
  refine ⟨?_, ?_, by norm_num⟩
  · norm_num [VTEPosition.set_vte_timeout, VTEPosition.castFloatToUint32]
  · norm_num [VTEPosition.set_vte_timeout, VTEPosition.castFloatToUint32]
    simp

/-- Claim C10 (amended): `set_vte_timeout(tout)` stores the timeout as a
32-bit unsigned count of microseconds obtained by a truncating cast of
`tout · 10⁶` whenever that value is non-negative and below `2^32`; for a
microsecond value that reaches `2^32` the out-of-range float-to-unsigned cast
is undefined behavior, so no wrapped (or any other) stored value is
guaranteed. -/
theorem set_vte_timeout_trunc (tout : ℚ) (h0 : 0 ≤ tout)
    (h1 : tout * 1000000 < 2 ^ 32) :
    ∃ n : Nat, VTEPosition.set_vte_timeout tout = some n ∧
      (n : ℚ) ≤ tout * 1000000 ∧ tout * 1000000 < (n : ℚ) + 1 := by
  have hnn : (0:ℚ) ≤ tout * 1000000 := by positivity
  refine ⟨Int.toNat ⌊tout * 1000000⌋, ?_, ?_, ?_⟩
  · rw [VTEPosition.set_vte_timeout, VTEPosition.castFloatToUint32,
      if_pos ⟨by linarith, h1⟩]
  · have h2 : (0:ℤ) ≤ ⌊tout * 1000000⌋ := Int.floor_nonneg.mpr hnn
    rw [show ((Int.toNat ⌊tout * 1000000⌋ : ℕ) : ℚ) = ((⌊tout * 1000000⌋ : ℤ) : ℚ) by
      exact_mod_cast congrArg (fun z : ℤ => (z : ℚ)) (Int.toNat_of_nonneg h2)]
    exact Int.floor_le _
  · have h2 : (0:ℤ) ≤ ⌊tout * 1000000⌋ := Int.floor_nonneg.mpr hnn
    rw [show ((Int.toNat ⌊tout * 1000000⌋ : ℕ) : ℚ) = ((⌊tout * 1000000⌋ : ℤ) : ℚ) by
      exact_mod_cast congrArg (fun z : ℤ => (z : ℚ)) (Int.toNat_of_nonneg h2)]
    exact Int.lt_floor_add_one _

/-- Witness for the amended C10 at `tout = 3` seconds (an in-range value). -/
theorem set_vte_timeout_trunc_witness :
    ∃ n : Nat, VTEPosition.set_vte_timeout 3 = some n ∧
      (n : ℚ) ≤ 3 * 1000000 ∧ (3 : ℚ) * 1000000 < (n : ℚ) + 1 :=
  set_vte_timeout_trunc 3 (by norm_num) (by norm_num)

end VisionTargetEstimator
